import Mathlib

/-!
Verification of the persistent external-completion-process provider
(`src/providers/LLMProvider.js`) of the hindsight-service repository.

The JavaScript class `LLMProvider` is shallowly embedded: the mutable
instance fields become a `Provider` record, each handler or callback in the
source becomes a pure state-transformer on that record, and the value
delivered to a waiting caller (promise resolution/rejection) is returned
explicitly as an `Outcome`.  JavaScript strings are modelled by `String`
(for payload text) and by `List Char` where we must reason about the
character-level framing of the stdout stream.  `JSON.parse` is a platform
builtin, not repository code, so the codec is parameterised by an abstract
partial decoding function `List Char → Option Msg`.
-/

/-- Provider states for persistent mode (`ProviderState` object, lines 19-25
of LLMProvider.js). -/
inductive ProviderState
  | STOPPED
  | STARTING
  | READY
  | BUSY
  | ERROR
deriving DecidableEq, Repr

/-- The `this.stats` counters (lines 50-56). -/
structure Stats where
  completions : Nat
  totalTimeMs : Nat
  avgTimeMs : Nat
  errors : Nat
  coldStarts : Nat
deriving DecidableEq, Repr

/-- The single in-flight turn: the source keeps it in `this.pendingPromise`
(lines 278-289), holding a `response` accumulator string and a `startTime`.
The resolve/reject callback pair is modelled by returning an `Outcome`. -/
structure PendingTurn where
  response : String
  startTime : Nat
deriving DecidableEq, Repr

/-- The value delivered to the caller awaiting the turn: promise resolution
with the response text, or rejection with an error message. -/
inductive Outcome
  | resolved (text : String)
  | rejected (err : String)
deriving DecidableEq, Repr

/-- One entry of `msg.message.content` in an `assistant` message
(lines 220-226): a block that either is a text block carrying `text`,
or some other block kind (ignored by the source loop). -/
inductive Block
  | text (t : String)
  | other
deriving DecidableEq, Repr

/-- A decoded protocol message, discriminated on `msg.type` exactly as the
`switch` in `_handleMessage` (lines 214-260).  `assistant` carries
`msg.message?.content` (`none` when the optional chain is falsy);
`result` carries the optional top-level `result` string; `err` carries
`msg.error?.message` and the top-level `msg.message`; `unknown` stands for
any other tag, on which the switch does nothing. -/
inductive Msg
  | assistant (content : Option (List Block))
  | result (res : Option String)
  | err (errMsg : Option String) (topMsg : Option String)
  | system
  | unknown
deriving DecidableEq, Repr

/-- The mutable instance state of `LLMProvider` relevant to persistent mode
(constructor, lines 37-56): `this.state`, `this.stdoutBuffer`,
`this.pendingPromise`, `this.stats`, and `this.process` (modelled by its
pid when a process handle is held).  `signals` records every kill signal
the provider has sent to the subprocess, so that frame claims about
"no signal is sent" are expressible; no handler in this file other than the
shutdown sequencer model ever appends to it, mirroring the source where
`kill` is called only inside `shutdown()`. -/
structure Provider where
  state : ProviderState
  stdoutBuffer : List Char
  pending : Option PendingTurn
  stats : Stats
  process : Option Nat
  signals : List String
deriving DecidableEq, Repr

/-- JavaScript `a || d` for an optional string `a`: `undefined` and the
empty string are falsy. -/
def jsOrStr (a : Option String) (d : String) : String :=
  match a with
  | some s => if s = "" then d else s
  | none => d

/-- JavaScript `Math.round (a / b)` on nonnegative integers: round half
away from zero, i.e. floor of `a / b + 1 / 2`. -/
def jsRound (a b : Nat) : Nat :=
  (2 * a + b) / (2 * b)

/-- The inner loop of the `assistant` branch (lines 221-225): fold the
content blocks over the accumulator `r`, appending `block.text` whenever
`block.type === 'text' && block.text` (a nonempty text block). -/
def appendBlocks (bs : List Block) (r : String) : String :=
  bs.foldl
    (fun acc b =>
      match b with
      | Block.text t => if t = "" then acc else acc ++ t
      | Block.other => acc)
    r

/-- Text contributed by one `assistant` message's optional content list. -/
def extractFrag : Option (List Block) → String
  | none => ""
  | some bs => appendBlocks bs ""

/-- Concatenation, in arrival order, of the texts of a list of
assistant-fragment contents. -/
def concatFrags : List (Option (List Block)) → String
  | [] => ""
  | c :: rest => extractFrag c ++ concatFrags rest

/-- `_handleMessage` (lines 214-260).  With no pending turn the message is
discarded (line 215).  `assistant` appends text blocks to the accumulator;
`result` resolves the caller with `pendingPromise.response || msg.result
|| ''`, updates the completion statistics with the elapsed time
`now - startTime`, clears the turn and returns the state to READY;
`error` rejects with `msg.error?.message || msg.message || 'Unknown
error'`, bumps the error counter, clears the turn and returns to READY;
`system` and unrecognised tags do nothing. -/
def handleMessage (msg : Msg) (now : Nat) (p : Provider) : Provider × Option Outcome :=
  match p.pending with
  | none => (p, none)
  | some pt =>
    match msg with
    | Msg.assistant content =>
      match content with
      | none => (p, none)
      | some blocks =>
        ({ p with pending := some { pt with response := appendBlocks blocks pt.response } },
         none)
    | Msg.result res =>
      let response := if pt.response = "" then jsOrStr res "" else pt.response
      let elapsed := now - pt.startTime
      let comps := p.stats.completions + 1
      let total := p.stats.totalTimeMs + elapsed
      ({ p with pending := none, state := ProviderState.READY,
                stats := { p.stats with completions := comps, totalTimeMs := total,
                                        avgTimeMs := jsRound total comps } },
       some (Outcome.resolved response))
    | Msg.err em tm =>
      ({ p with pending := none, state := ProviderState.READY,
                stats := { p.stats with errors := p.stats.errors + 1 } },
       some (Outcome.rejected (jsOrStr em (jsOrStr tm "Unknown error"))))
    | Msg.system => (p, none)
    | Msg.unknown => (p, none)

/-- Deliver a list of decoded messages to `_handleMessage` in order,
collecting the outcomes produced along the way. -/
def handleMessages (now : Nat) (msgs : List Msg) (p : Provider) : Provider × List Outcome :=
  match msgs with
  | [] => (p, [])
  | m :: rest =>
    let r1 := handleMessage m now p
    let r2 := handleMessages now rest r1.1
    (r2.1, match r1.2 with
           | some o => o :: r2.2
           | none => r2.2)

/-- Sample statistics record for concrete instances. -/
def stats0 : Stats := ⟨0, 0, 0, 0, 0⟩

/-- A fresh pending turn with empty accumulator. -/
def turn0 : PendingTurn := { response := "", startTime := 0 }

/-- A provider that is BUSY on turn `turn0`, with a live process. -/
def busy0 : Provider :=
  { state := ProviderState.BUSY, stdoutBuffer := [], pending := some turn0,
    stats := stats0, process := some 42, signals := [] }

/-- A freshly constructed provider: STOPPED with no process
(constructor, lines 38-39). -/
def stopped0 : Provider :=
  { state := ProviderState.STOPPED, stdoutBuffer := [], pending := none,
    stats := stats0, process := none, signals := [] }

/-- Line framing performed by `_handleStdout` (lines 190-208).  The source
appends the chunk to `this.stdoutBuffer`, does `split('\n')`, and `pop`s the
final element back into the buffer.  `splitNl xs` returns exactly that pair:
the list of complete newline-terminated segments (each without its
terminating newline, in order) and the trailing not-yet-terminated
remainder. -/
def splitNl : List Char → List (List Char) × List Char
  | [] => ([], [])
  | c :: rest =>
    let r := splitNl rest
    if c = '\n' then (([] : List Char) :: r.1, r.2)
    else
      match r.1 with
      | [] => ([], c :: r.2)
      | s :: ss => ((c :: s) :: ss, r.2)

/-- JavaScript `line.trim()`: strip whitespace from both ends. -/
def trimChars (xs : List Char) : List Char :=
  ((xs.dropWhile Char.isWhitespace).reverse.dropWhile Char.isWhitespace).reverse

/-- The per-line body of the `_handleStdout` loop (lines 198-206): trim the
segment, skip it when empty, otherwise attempt to parse it; a parse failure
is swallowed (`catch` with an empty handler) and produces no message. -/
def decodeLineC (parse : List Char → Option Msg) (line : List Char) : Option Msg :=
  let t := trimChars line
  if t = [] then none else parse t

/-- `_handleStdout` (lines 190-208), codec part: given the current
`stdoutBuffer` and a newly arrived chunk, return the new buffer (the
trailing incomplete segment) and the decoded protocol messages of the
complete segments, in order.  The decoding function stands for the
platform's `JSON.parse` composed with the message classification. -/
def handleStdoutChars (parse : List Char → Option Msg) (buffer data : List Char) :
    List Char × List Msg :=
  let r := splitNl (buffer ++ data)
  (r.2, r.1.filterMap (decodeLineC parse))

/-- The synchronous body of the `_sendMessage` promise executor
(lines 271-302): arm the turn timeout, install the fresh PendingTurn with
empty accumulator and the current timestamp (lines 278-289), set the state
to BUSY (line 291), and write the encoded request to the subprocess stdin.
The executor runs synchronously within the caller's own job, so these
assignments take effect before any timer armed in the same run — in
particular the warmup grace timer of line 152 — can fire. -/
def sendMessageStart (now : Nat) (p : Provider) : Provider :=
  { p with pending := some { response := "", startTime := now },
           state := ProviderState.BUSY }

/-- The timeout callback armed in `_sendMessage` (lines 272-276): clear
`pendingPromise`, set the state back to READY, and reject the waiting
caller with the timeout error.  Nothing else on the instance is touched;
in particular the process handle is kept and no kill signal is issued. -/
def onTimeout (t : Nat) (p : Provider) : Provider × Outcome :=
  ({ p with pending := none, state := ProviderState.READY },
   Outcome.rejected ("Timeout after " ++ toString t ++ "ms"))

/-- The `exit` handler installed in `_startPersistentProcess`
(lines 128-140): drop the process handle, set the state to STOPPED, and if
a turn is pending reject its caller with the process-exited error and
clear it. -/
def onProcessExit (p : Provider) : Provider × Option Outcome :=
  let p1 := { p with process := none, state := ProviderState.STOPPED }
  match p.pending with
  | some _ => ({ p1 with pending := none },
               some (Outcome.rejected ("Process exited unexpectedly")))
  | none => (p1, none)

/-- The synchronous spawn prefix of `_startPersistentProcess`
(lines 90-112): set the state to STARTING, count a cold start, and hold the
handle of the freshly spawned subprocess. -/
def startSpawn (newPid : Nat) (p : Provider) : Provider :=
  { p with state := ProviderState.STARTING,
           stats := { p.stats with coldStarts := p.stats.coldStarts + 1 },
           process := some newPid }

/-- The first action `_persistentComplete` (lines 333-357) takes, as a
function of the state observed at entry. -/
inductive CompleteAct
  | autoInit
  | waitBusy
  | throwNotReady
  | send
deriving DecidableEq, Repr

/-- Entry dispatch of `_persistentComplete` (lines 333-357): on STOPPED it
awaits `initialize()` (auto-restart); on BUSY it parks in the poll loop
until the state flips to READY; any other non-READY state throws
`Provider not ready` immediately; on READY it proceeds to
`_sendMessage`. -/
def persistentCompleteAct (s : ProviderState) : CompleteAct :=
  if s = ProviderState.STOPPED then CompleteAct.autoInit
  else if s = ProviderState.BUSY then CompleteAct.waitBusy
  else if s = ProviderState.READY then CompleteAct.send
  else CompleteAct.throwNotReady

/-- The action `initialize()` (lines 65-83) takes in persistent mode. -/
inductive InitAct
  | alreadyReady
  | waitStarting
  | start
deriving DecidableEq, Repr

/-- Dispatch of `initialize()` (lines 65-83): READY returns true at once,
STARTING parks until the in-flight warmup settles, anything else starts the
persistent process. -/
def initAct (s : ProviderState) : InitAct :=
  if s = ProviderState.READY then InitAct.alreadyReady
  else if s = ProviderState.STARTING then InitAct.waitStarting
  else InitAct.start

/-- The warmup grace timer callback (lines 152-159): if the provider is
still STARTING when the 5s grace period elapses, declare it READY and
resolve the pending `initialize()` call with `true`; otherwise do nothing
(the promise has already settled).  The returned option is the value the
callback resolves, if any. -/
def warmupGraceFire (p : Provider) : Provider × Option Bool :=
  if p.state = ProviderState.STARTING then
    ({ p with state := ProviderState.READY }, some true)
  else (p, none)

/-- The `.then` continuation of the warmup turn (lines 162-169): cancel the
grace timer, mark READY, resolve `initialize()` with `true`. -/
def warmupSuccess (p : Provider) : Provider × Bool :=
  ({ p with state := ProviderState.READY }, true)

/-- The `.catch` continuation of the warmup turn (lines 170-182): if the
process handle is still held, optimistically mark READY and resolve
`true`; otherwise mark ERROR and reject (modelled by `none`). -/
def warmupFailure (p : Provider) : Provider × Option Bool :=
  if p.process.isSome then ({ p with state := ProviderState.READY }, some true)
  else ({ p with state := ProviderState.ERROR }, none)

/-- State of the shutdown sequencer (`shutdown()`, lines 421-459) once its
synchronous prefix has run: stdin has been closed, the 5s force-kill timer
(`forceKillTimeout`) and the 1s SIGTERM timer are armed, and the `exit`
listener is registered.  `processAlive` models `this.process !== null`;
`signals` records the kill signals sent, in order; `resolved` records that
the `shutdown()` promise has resolved. -/
structure SState where
  processAlive : Bool
  graceArmed : Bool
  hardArmed : Bool
  exited : Bool
  signals : List String
  resolved : Bool
deriving DecidableEq, Repr

/-- Shutdown state right after the synchronous body of `shutdown()` ran
with a live process. -/
def shutdownStart : SState :=
  { processAlive := true, graceArmed := true, hardArmed := true,
    exited := false, signals := [], resolved := false }

/-- The three asynchronous events that can fire during shutdown. -/
inductive SEvent
  | exitEvt
  | graceFire
  | hardFire
deriving DecidableEq, Repr

/-- Effect of one shutdown event, read off the source.
`exitEvt` runs the spawn-time `exit` handler (line 128: `this.process =
null`) and the `once('exit')` handler of `shutdown()` (lines 444-450:
`clearTimeout(forceKillTimeout)`, `this.process = null`, resolve); note
that neither handler clears the 1s SIGTERM timer.  `graceFire` is the 1s
timer callback (lines 453-457): send SIGTERM only if a process handle is
still held.  `hardFire` is the 5s `forceKillTimeout` callback (lines
429-437): SIGKILL if a handle is still held, then drop the handle and
resolve.  A timer that has already fired or been cleared does nothing. -/
def sApply : SEvent → SState → SState
  | SEvent.exitEvt, s =>
    if s.exited then s
    else { s with exited := true, processAlive := false,
                  hardArmed := false, resolved := true }
  | SEvent.graceFire, s =>
    if s.graceArmed then
      { s with graceArmed := false,
               signals := if s.processAlive then s.signals ++ ["SIGTERM"] else s.signals }
    else s
  | SEvent.hardFire, s =>
    if s.hardArmed then
      { s with hardArmed := false,
               signals := if s.processAlive then s.signals ++ ["SIGKILL"] else s.signals,
               processAlive := false, resolved := true }
    else s

/-- Run a sequence of shutdown events from a state. -/
def sRun (evs : List SEvent) (s : SState) : SState :=
  evs.foldl (fun a e => sApply e a) s

/-- Phase of a second caller that entered `_persistentComplete` while the
provider was BUSY: it is parked in the 100ms poll loop (lines 341-350), or
it has passed the READY check and performed its `_sendMessage` write
(lines 352-356, 266-303). -/
inductive Phase
  | polling
  | sent
deriving DecidableEq, Repr

/-- Joint state of the provider and two concurrent callers of
`complete()`: caller 1 owns the open turn (`pending = some 1`), caller 2
arrived while the provider was BUSY.  `turn1Done` records that caller 1's
future has been resolved or rejected; `written2` records that caller 2 has
written its request to the subprocess stdin. -/
structure Sys where
  pstate : ProviderState
  pending : Option Nat
  turn1Done : Bool
  written2 : Bool
  phase : Phase
deriving DecidableEq, Repr

/-- Initial state for the two-caller scenario: caller 1's turn is open
(state BUSY), caller 2 has just executed the synchronous entry of
`_persistentComplete`, observed BUSY, and parked in the poll loop. -/
def sysInit : Sys :=
  { pstate := ProviderState.BUSY, pending := some 1,
    turn1Done := false, written2 := false, phase := Phase.polling }

/-- Atomic interleaving steps of the two-caller scenario, at event-loop
granularity (each JavaScript macrotask together with the microtasks it
unblocks is one atomic step, since the Node event loop never interleaves
another macrotask between a task and the microtask drain that follows it).

`finish1` is any terminal event for caller 1's turn that returns the
provider to READY: a `result` message (lines 229-244), an `error` message
(lines 246-254), or the turn timeout (lines 272-276); all three clear
`pendingPromise` and set the state to READY, settling caller 1's future.
`finish2` is the same for caller 2's turn once open.  `procExit` is the
subprocess `exit` handler (lines 128-140): state STOPPED, `pendingPromise`
rejected and cleared if present.  `tickReady` is one firing of caller 2's
poll interval that observes READY (lines 343-348): its continuation runs
in the following microtask drain, re-checks the state (line 352) and
performs `_sendMessage` (lines 266-303), which installs the new
`pendingPromise`, sets the state to BUSY and writes to stdin. -/
inductive SysStep : Sys → Sys → Prop
  | finish1 (s : Sys) (h : s.pending = some 1) :
      SysStep s { s with pending := none, pstate := ProviderState.READY,
                         turn1Done := true }
  | finish2 (s : Sys) (h : s.pending = some 2) :
      SysStep s { s with pending := none, pstate := ProviderState.READY }
  | procExit (s : Sys) :
      SysStep s { s with pending := none, pstate := ProviderState.STOPPED,
                         turn1Done := s.turn1Done || (s.pending == some 1) }
  | tickReady (s : Sys) (hp : s.phase = Phase.polling)
      (hr : s.pstate = ProviderState.READY) :
      SysStep s { s with pending := some 2, pstate := ProviderState.BUSY,
                         written2 := true, phase := Phase.sent }

/-- Reachability from the two-caller initial state. -/
def SysReach (s : Sys) : Prop := Relation.ReflTransGen SysStep sysInit s

/-- Inductive invariant of the two-caller system. -/
def SysInv (s : Sys) : Prop :=
  (s.pstate = ProviderState.READY → s.turn1Done = true ∧ s.pending = none) ∧
  (s.written2 = true → s.turn1Done = true) ∧
  (s.pending = some 2 → s.turn1Done = true)

/-- Whether a message is a `turn-error` message. -/
def isErrMsg : Msg → Bool
  | Msg.err _ _ => true
  | _ => false

/-- The complete protocol line of the worked codec example. -/
def exLine1 : List Char := "\x7b\"type\":\"result\",\"result\":\"ok\"\x7d".toList

/-- The trailing partial line of the worked codec example. -/
def exTail : List Char := "\x7b\"type\":\"result\"".toList

/-- The second protocol line, once the partial line has been completed by a
later append. -/
def exLine2 : List Char := "\x7b\"type\":\"result\",\"result\":\"ok2\"\x7d".toList

/-- The later chunk that completes the partial line. -/
def exMore : List Char := ",\"result\":\"ok2\"\x7d\n".toList

/-- A concrete decoding oracle recognising the two example lines; it stands
in for the platform `JSON.parse` plus message classification, which is not
repository code. -/
def exParse (xs : List Char) : Option Msg :=
  if xs = exLine1 then some (Msg.result (some "ok"))
  else if xs = exLine2 then some (Msg.result (some "ok2"))
  else none

theorem splitNl_no_newline (xs : List Char) (h : '\n' ∉ xs) : splitNl xs = ([], xs) := by
  induction xs with
  | nil => rfl
  | cons c rest ih =>
    have hc : c ≠ '\n' := fun hc => h (hc ▸ List.mem_cons_self c rest)
    have hr : '\n' ∉ rest := fun hr => h (List.mem_cons_of_mem c hr)
    simp [splitNl, ih hr, hc]

theorem splitNl_append_newline (xs ys : List Char) (h : '\n' ∉ xs) :
    splitNl (xs ++ '\n' :: ys) = (xs :: (splitNl ys).1, (splitNl ys).2) := by
  induction xs with
  | nil => simp [splitNl]
  | cons c rest ih =>
    have hc : c ≠ '\n' := fun hc => h (hc ▸ List.mem_cons_self c rest)
    have hr : '\n' ∉ rest := fun hr => h (List.mem_cons_of_mem c hr)
    simp [splitNl, ih hr, hc]

theorem splitNl_rem_no_newline (xs : List Char) : '\n' ∉ (splitNl xs).2 := by
  induction xs with
  | nil => simp [splitNl]
  | cons c rest ih =>
    by_cases hc : c = '\n'
    · simpa [splitNl, hc] using ih
    · cases hr : (splitNl rest).1 with
      | nil =>
        simp only [splitNl, hr, hc, if_false]
        intro hmem
        rcases List.mem_cons.mp hmem with h1 | h2
        · exact hc h1.symm
        · exact ih h2
      | cons s ss => simpa [splitNl, hr, hc] using ih

theorem sApply_inv (e : SEvent) (s : SState)
    (h : s.exited = true → s.processAlive = false ∧ s.hardArmed = false) :
    (sApply e s).exited = true →
      (sApply e s).processAlive = false ∧ (sApply e s).hardArmed = false := by
  cases e with
  | exitEvt =>
    by_cases hx : s.exited <;> simp [sApply, hx, h]
  | graceFire =>
    by_cases hg : s.graceArmed
    · simpa [sApply, hg] using h
    · simpa [sApply, hg] using h
  | hardFire =>
    by_cases hh : s.hardArmed
    · simp [sApply, hh]
    · simpa [sApply, hh] using h

theorem sRun_inv (evs : List SEvent) (s : SState)
    (h : s.exited = true → s.processAlive = false ∧ s.hardArmed = false) :
    (sRun evs s).exited = true →
      (sRun evs s).processAlive = false ∧ (sRun evs s).hardArmed = false := by
  induction evs generalizing s with
  | nil => exact h
  | cons e rest ih => exact ih (sApply e s) (sApply_inv e s h)

theorem sApply_no_signal (e : SEvent) (s : SState)
    (hp : s.processAlive = false) (hh : s.hardArmed = false) :
    (sApply e s).signals = s.signals := by
  cases e with
  | exitEvt => by_cases hx : s.exited <;> simp [sApply, hx]
  | graceFire => by_cases hg : s.graceArmed <;> simp [sApply, hg, hp]
  | hardFire => simp [sApply, hh]

theorem sysStep_inv {s s' : Sys} (hs : SysStep s s') (h : SysInv s) : SysInv s' := by
  obtain ⟨h1, h2, h3⟩ := h
  cases hs with
  | finish1 hp => exact ⟨fun _ => ⟨rfl, rfl⟩, fun _ => rfl, by simp⟩
  | finish2 hp =>
    exact ⟨fun _ => ⟨h3 hp, rfl⟩, fun hw => h2 hw, by simp⟩
  | procExit =>
    refine ⟨fun hc => by simp at hc, fun hw => ?_, by simp⟩
    simp [h2 hw]
  | tickReady hp hr =>
    have ht : s.turn1Done = true := (h1 hr).1
    exact ⟨fun hc => by simp at hc, fun _ => ht, fun _ => ht⟩

theorem sysReach_inv {s : Sys} (h : SysReach s) : SysInv s := by
  induction h with
  | refl => exact ⟨fun hc => by simp [sysInit] at hc, fun hw => by simp [sysInit] at hw,
                   fun hc => by simp [sysInit] at hc⟩
  | tail _ hstep ih => exact sysStep_inv hstep ih

theorem appendBlocks_eq (bs : List Block) (r : String) :
    appendBlocks bs r = r ++ appendBlocks bs "" := by
  induction bs generalizing r with
  | nil => simp [appendBlocks]
  | cons b rest ih =>
    cases b with
    | other => simpa [appendBlocks] using ih r
    | text t =>
      by_cases ht : t = ""
      · simpa [appendBlocks, ht] using ih r
      · calc appendBlocks (Block.text t :: rest) r
            = appendBlocks rest (r ++ t) := by simp [appendBlocks, ht]
          _ = (r ++ t) ++ appendBlocks rest "" := ih (r ++ t)
          _ = r ++ (t ++ appendBlocks rest "") := by rw [String.append_assoc]
          _ = r ++ appendBlocks rest t := by rw [← ih t]
          _ = r ++ appendBlocks (Block.text t :: rest) "" := by simp [appendBlocks, ht]

theorem handleMessages_frags (now : Nat) (frags : List (Option (List Block)))
    (p : Provider) (pt : PendingTurn) (hp : p.pending = some pt) :
    handleMessages now (frags.map Msg.assistant) p =
      ({ p with pending := some { pt with response := pt.response ++ concatFrags frags } },
       []) := by
  induction frags generalizing p pt with
  | nil =>
    obtain ⟨st, buf, pend, stats, proc, sig⟩ := p
    cases hp
    simp [handleMessages, concatFrags]
  | cons c rest ih =>
    cases c with
    | none =>
      have h1 : handleMessage (Msg.assistant none) now p = (p, none) := by
        simp [handleMessage, hp]
      have h2 := ih p pt hp
      simp [handleMessages, h1, h2, concatFrags, extractFrag]
    | some bs =>
      have h1 : handleMessage (Msg.assistant (some bs)) now p =
          ({ p with pending := some { pt with response := appendBlocks bs pt.response } },
           none) := by
        simp [handleMessage, hp]
      have h2 := ih { p with pending := some { pt with response := pt.response ++ appendBlocks bs "" } }
                    { pt with response := pt.response ++ appendBlocks bs "" } rfl
      simp [handleMessages, h1, h2, concatFrags, extractFrag,
            appendBlocks_eq bs pt.response, String.append_assoc]

theorem handleMessages_append (now : Nat) (xs ys : List Msg) (p : Provider) :
    handleMessages now (xs ++ ys) p =
      ((handleMessages now ys (handleMessages now xs p).1).1,
       (handleMessages now xs p).2 ++ (handleMessages now ys (handleMessages now xs p).1).2) := by
  induction xs generalizing p with
  | nil => simp [handleMessages]
  | cons m rest ih =>
    simp only [List.cons_append, handleMessages, List.append_eq]
    rw [ih (handleMessage m now p).1]
    cases (handleMessage m now p).2 <;> simp

/-- C2: for every sequence of assistant-fragment messages followed by one
turn-result message delivered while a PendingTurn with empty accumulator is
open, the turn resolves with the concatenation of the fragments' text
blocks in arrival order; if that concatenation is empty it resolves with
the result payload's own text (with the empty string as JavaScript `||`
fallback); and the provider ends with the PendingTurn cleared and the
state back at READY. -/
theorem turn_result_accumulation (now : Nat) (frags : List (Option (List Block)))
    (r : Option String) (p : Provider) (pt : PendingTurn)
    (hp : p.pending = some pt) (h0 : pt.response = "") :
    (handleMessages now (frags.map Msg.assistant ++ [Msg.result r]) p).2 =
      [Outcome.resolved (if concatFrags frags = "" then jsOrStr r "" else concatFrags frags)] ∧
    (handleMessages now (frags.map Msg.assistant ++ [Msg.result r]) p).1.pending = none ∧
    (handleMessages now (frags.map Msg.assistant ++ [Msg.result r]) p).1.state =
      ProviderState.READY := by
  have hA := handleMessages_frags now frags p pt hp
  have hB := handleMessages_append now (frags.map Msg.assistant) [Msg.result r] p
  rw [hA] at hB
  rw [hB]
  simp [handleMessages, handleMessage, h0]

/-- Witness for `turn_result_accumulation`: the worked scenario of the
design document, fragments `"Hi "` and `"there"` then an empty result. -/
theorem turn_result_accumulation_witness :
    (handleMessages 5 (([some [Block.text "Hi "], some [Block.text "there"]] :
        List (Option (List Block))).map Msg.assistant ++ [Msg.result (some "")]) busy0).2 =
      [Outcome.resolved "Hi there"] ∧
    (handleMessages 5 (([some [Block.text "Hi "], some [Block.text "there"]] :
        List (Option (List Block))).map Msg.assistant ++ [Msg.result (some "")]) busy0).1.pending =
      none := by
  have h := turn_result_accumulation 5 [some [Block.text "Hi "], some [Block.text "there"]]
      (some "") busy0 turn0 rfl rfl
  exact ⟨by rw [h.1]; decide, h.2.1⟩

/-- C5: a `turn-error` message while a PendingTurn is open rejects exactly
the waiting caller with the decoded error message
(`msg.error?.message || msg.message || 'Unknown error'`), clears the
PendingTurn, increments the error counter, and leaves the provider READY,
so the next `complete()` call dispatches straight to `_sendMessage`. -/
theorem turn_error_rejects (now : Nat) (em tm : Option String) (p : Provider)
    (pt : PendingTurn) (hp : p.pending = some pt) :
    (handleMessage (Msg.err em tm) now p).2 =
        some (Outcome.rejected (jsOrStr em (jsOrStr tm "Unknown error"))) ∧
    (handleMessage (Msg.err em tm) now p).1.pending = none ∧
    (handleMessage (Msg.err em tm) now p).1.stats.errors = p.stats.errors + 1 ∧
    (handleMessage (Msg.err em tm) now p).1.state = ProviderState.READY ∧
    persistentCompleteAct (handleMessage (Msg.err em tm) now p).1.state = CompleteAct.send := by
  simp [handleMessage, hp, persistentCompleteAct]

/-- Witness for `turn_error_rejects` at a concrete busy provider. -/
theorem turn_error_rejects_witness :
    (handleMessage (Msg.err (some "boom") none) 5 busy0).2 =
        some (Outcome.rejected "boom") ∧
    (handleMessage (Msg.err (some "boom") none) 5 busy0).1.pending = none ∧
    (handleMessage (Msg.err (some "boom") none) 5 busy0).1.stats.errors =
      busy0.stats.errors + 1 ∧
    (handleMessage (Msg.err (some "boom") none) 5 busy0).1.state = ProviderState.READY := by
  have h := turn_error_rejects 5 (some "boom") none busy0 turn0 rfl
  exact ⟨by rw [h.1]; decide, h.2.1, h.2.2.1, h.2.2.2.1⟩

/-- C6: when a turn timeout fires, the caller's future is rejected with a
timeout error, the PendingTurn is cleared, the state returns to READY;
the process handle is retained unchanged and no kill signal is recorded,
so the subprocess is not killed for a slow turn. -/
theorem timeout_rejects_not_kills (t : Nat) (p : Provider) :
    (onTimeout t p).1.pending = none ∧
    (onTimeout t p).1.state = ProviderState.READY ∧
    (onTimeout t p).2 = Outcome.rejected ("Timeout after " ++ toString t ++ "ms") ∧
    (onTimeout t p).1.process = p.process ∧
    (onTimeout t p).1.signals = p.signals :=
  ⟨rfl, rfl, rfl, rfl, rfl⟩

/-- C10: a turn abandoned by timeout leaves every Statistics counter
unchanged (the whole stats record is preserved), and within the persistent
message path the error counter is incremented exactly when a turn-error
message arrives with a PendingTurn open — never by a timeout. -/
theorem timeout_stats_frame :
    (∀ (t : Nat) (p : Provider), (onTimeout t p).1.stats = p.stats) ∧
    (∀ (msg : Msg) (now : Nat) (p : Provider),
      (handleMessage msg now p).1.stats.errors =
        p.stats.errors + (if p.pending.isSome && isErrMsg msg then 1 else 0)) := by
  constructor
  · intro t p
    rfl
  · intro msg now p
    cases hp : p.pending with
    | none => cases msg <;> simp [handleMessage, isErrMsg, hp]
    | some pt =>
      cases msg with
      | assistant c => cases c <;> simp [handleMessage, isErrMsg, hp]
      | result r => simp [handleMessage, isErrMsg, hp]
      | err a b => simp [handleMessage, isErrMsg, hp]
      | system => simp [handleMessage, isErrMsg, hp]
      | unknown => simp [handleMessage, isErrMsg, hp]

/-- C9: in persistent mode, `complete()` invoked while the provider is
STARTING or ERROR throws `Provider not ready` immediately; the
auto-initialize path is taken exactly from STOPPED and the park-until-READY
wait exactly from BUSY. -/
theorem complete_dispatch_by_state :
    persistentCompleteAct ProviderState.STARTING = CompleteAct.throwNotReady ∧
    persistentCompleteAct ProviderState.ERROR = CompleteAct.throwNotReady ∧
    (∀ s, persistentCompleteAct s = CompleteAct.autoInit ↔ s = ProviderState.STOPPED) ∧
    (∀ s, persistentCompleteAct s = CompleteAct.waitBusy ↔ s = ProviderState.BUSY) := by
  refine ⟨by decide, by decide, ?_, ?_⟩ <;> intro s <;> cases s <;> decide

/-- C8 counterexample: in the very scenario the claim addresses — process
spawned, warmup turn sent, no error occurred, no terminal message yet —
the provider's state at any moment the grace timer can fire is BUSY, not
STARTING: `_sendMessage('Hello')` (line 162) runs its promise executor
synchronously in the same job that arms the 5s `warmupTimeout` (line 152),
and that executor sets the state to BUSY (line 291); nothing but line 90
ever sets STARTING again.  So the guard `state === STARTING` (line 153)
fails, the grace callback does nothing — it neither moves the provider to
READY nor resolves the pending `initialize()` call — refuting the claimed
Starting-to-Ready-on-grace-expiry transition. -/
theorem warmup_grace_dead_code :
    (sendMessageStart 0 (startSpawn 42 stopped0)).state = ProviderState.BUSY ∧
    warmupGraceFire (sendMessageStart 0 (startSpawn 42 stopped0)) =
      (sendMessageStart 0 (startSpawn 42 stopped0), none) ∧
    (warmupGraceFire (sendMessageStart 0 (startSpawn 42 stopped0))).1.state ≠
      ProviderState.READY ∧
    (warmupGraceFire (sendMessageStart 0 (startSpawn 42 stopped0))).2 ≠ some true := by
  decide

/-- C8 amended: the provider leaves STARTING for READY only through the
warmup turn itself — its success continuation, or its failure continuation
with the process handle still held — and in those cases the pending
`initialize()` call resolves `true`; the warmup grace-period expiry never
performs this transition, because sending the warmup turn synchronously
sets the state to BUSY before the grace timer can fire, and the grace
callback does nothing when the state is no longer STARTING. -/
theorem warmup_ready_paths :
    (∀ (p : Provider) (pid now : Nat),
      (sendMessageStart now (startSpawn pid p)).state = ProviderState.BUSY) ∧
    (∀ p : Provider, p.state ≠ ProviderState.STARTING → warmupGraceFire p = (p, none)) ∧
    (∀ p : Provider, warmupSuccess p = ({ p with state := ProviderState.READY }, true)) ∧
    (∀ p : Provider, p.process.isSome = true →
      warmupFailure p = ({ p with state := ProviderState.READY }, some true)) := by
  refine ⟨fun p pid now => rfl, fun p h => ?_, fun p => rfl, fun p h => ?_⟩
  · simp [warmupGraceFire, h]
  · simp [warmupFailure, h]

/-- Witness for `warmup_ready_paths`: the grace timer firing over the
in-flight warmup turn does nothing, and the warmup failure continuation
over a live process resolves `true`. -/
theorem warmup_ready_paths_witness :
    warmupGraceFire (sendMessageStart 0 (startSpawn 42 stopped0)) =
      (sendMessageStart 0 (startSpawn 42 stopped0), none) ∧
    warmupFailure (sendMessageStart 0 (startSpawn 42 stopped0)) =
      ({ sendMessageStart 0 (startSpawn 42 stopped0) with state := ProviderState.READY },
       some true) :=
  ⟨warmup_ready_paths.2.1 (sendMessageStart 0 (startSpawn 42 stopped0)) (by decide),
   warmup_ready_paths.2.2.2 (sendMessageStart 0 (startSpawn 42 stopped0)) (by decide)⟩

/-- C4: if the subprocess exits while a PendingTurn is open, that turn's
future is rejected with the process-exited error (never left pending), the
state becomes STOPPED, and a subsequent `complete()` call takes the
auto-initialize path, whose `initialize()` dispatch starts the persistent
process and spawns a fresh subprocess handle. -/
theorem process_exit_rejects_then_respawns (p : Provider) (pt : PendingTurn) (newPid : Nat)
    (hp : p.pending = some pt) :
    (onProcessExit p).2 = some (Outcome.rejected "Process exited unexpectedly") ∧
    (onProcessExit p).1.pending = none ∧
    (onProcessExit p).1.state = ProviderState.STOPPED ∧
    persistentCompleteAct (onProcessExit p).1.state = CompleteAct.autoInit ∧
    initAct (onProcessExit p).1.state = InitAct.start ∧
    (startSpawn newPid (onProcessExit p).1).process = some newPid ∧
    (startSpawn newPid (onProcessExit p).1).state = ProviderState.STARTING := by
  simp [onProcessExit, hp, persistentCompleteAct, initAct, startSpawn]

/-- Witness for `process_exit_rejects_then_respawns` at a concrete busy
provider and fresh pid 99. -/
theorem process_exit_rejects_then_respawns_witness :
    (onProcessExit busy0).2 = some (Outcome.rejected "Process exited unexpectedly") ∧
    (onProcessExit busy0).1.pending = none ∧
    (onProcessExit busy0).1.state = ProviderState.STOPPED ∧
    persistentCompleteAct (onProcessExit busy0).1.state = CompleteAct.autoInit ∧
    initAct (onProcessExit busy0).1.state = InitAct.start ∧
    (startSpawn 99 (onProcessExit busy0).1).process = some 99 ∧
    (startSpawn 99 (onProcessExit busy0).1).state = ProviderState.STARTING :=
  process_exit_rejects_then_respawns busy0 turn0 99 rfl

/-- C1: in the two-caller scenario where caller 2 issues `complete()` while
the provider is BUSY on caller 1's turn, every state reachable under the
event-loop interleavings satisfies: caller 2's write to the subprocess
stdin has happened only if caller 1's turn has already been resolved or
rejected; the single `pendingPromise` slot holds caller 2's turn only after
caller 1's turn was settled (so no second PendingTurn ever coexists with an
unsettled first one); and whenever the state is READY the slot is empty, so
the `_sendMessage` performed by `tickReady` never overwrites an open
turn. -/
theorem busy_callers_serialized (s : Sys) (h : SysReach s) :
    (s.written2 = true → s.turn1Done = true) ∧
    (s.pending = some 2 → s.turn1Done = true) ∧
    (s.pstate = ProviderState.READY → s.pending = none) := by
  obtain ⟨h1, h2, h3⟩ := sysReach_inv h
  exact ⟨h2, h3, fun hr => (h1 hr).2⟩

/-- Witness for `busy_callers_serialized` at the initial state. -/
theorem busy_callers_serialized_witness :
    (sysInit.written2 = true → sysInit.turn1Done = true) ∧
    (sysInit.pending = some 2 → sysInit.turn1Done = true) ∧
    (sysInit.pstate = ProviderState.READY → sysInit.pending = none) :=
  busy_callers_serialized sysInit Relation.ReflTransGen.refl

/-- C7 counterexample: immediately after the exit event fires during
shutdown, the 1s grace-delay (SIGTERM) timer is still armed — the exit
handlers clear only `forceKillTimeout` (line 445), not the SIGTERM timer
armed at line 453 — refuting the claim that every timer armed by the
grace-delay and hard-deadline steps is cancelled as soon as the exit event
fires. -/
theorem shutdown_grace_timer_not_cancelled :
    (sApply SEvent.exitEvt shutdownStart).exited = true ∧
    (sApply SEvent.exitEvt shutdownStart).graceArmed = true := by
  decide

/-- C7 amended: during `shutdown()`, once the exit event has been observed
the hard-deadline timer has been cancelled, and no termination or kill
signal is ever sent afterwards — the surviving grace-delay timer's callback
finds the process handle already cleared and sends nothing. -/
theorem no_signal_after_exit (evs : List SEvent) (e : SEvent)
    (h : (sRun evs shutdownStart).exited = true) :
    (sRun evs shutdownStart).hardArmed = false ∧
    (sApply e (sRun evs shutdownStart)).signals = (sRun evs shutdownStart).signals := by
  have hinv := sRun_inv evs shutdownStart (by intro hx; simp [shutdownStart] at hx) h
  exact ⟨hinv.2, sApply_no_signal e _ hinv.1 hinv.2⟩

/-- Witness for `no_signal_after_exit`: the exit event followed by the
late firing of the grace-delay timer. -/
theorem no_signal_after_exit_witness :
    (sRun [SEvent.exitEvt] shutdownStart).hardArmed = false ∧
    (sApply SEvent.graceFire (sRun [SEvent.exitEvt] shutdownStart)).signals =
      (sRun [SEvent.exitEvt] shutdownStart).signals :=
  no_signal_after_exit [SEvent.exitEvt] SEvent.graceFire (by decide)

/-- C3: the codec removes each complete newline-terminated segment, trims
it and hands the non-empty ones to the decoder; the trailing remainder is
always preserved in the buffer (an append with no newline produces no
message and extends the buffer); a segment whose decode fails produces no
message and no error (the function is total); and the worked example — one
complete line plus a partial line — yields exactly one decoded message,
the partial line being decoded only after a later append completes it. -/
theorem codec_framing :
    (∀ (parse : List Char → Option Msg) (buf data : List Char),
      '\n' ∉ buf ++ data → handleStdoutChars parse buf data = (buf ++ data, [])) ∧
    (∀ (parse : List Char → Option Msg) (l rest : List Char),
      '\n' ∉ l → '\n' ∉ rest →
      handleStdoutChars parse [] (l ++ '\n' :: rest) =
        (rest, (decodeLineC parse l).toList)) ∧
    (∀ (parse : List Char → Option Msg) (l : List Char),
      parse (trimChars l) = none → decodeLineC parse l = none) ∧
    handleStdoutChars exParse [] (exLine1 ++ '\n' :: exTail) =
      (exTail, [Msg.result (some "ok")]) ∧
    handleStdoutChars exParse exTail exMore = ([], [Msg.result (some "ok2")]) := by
  refine ⟨?_, ?_, ?_, ?_, ?_⟩
  · intro parse buf data h
    simp [handleStdoutChars, splitNl_no_newline _ h]
  · intro parse l rest hl hr
    have hfm : List.filterMap (decodeLineC parse) [l] = (decodeLineC parse l).toList := by
      cases hdc : decodeLineC parse l <;> simp [hdc]
    simp [handleStdoutChars, splitNl_append_newline l rest hl, splitNl_no_newline rest hr, hfm]
  · intro parse l h
    by_cases ht : trimChars l = [] <;> simp [decodeLineC, ht, h]
  · decide
  · decide

/-- Witness for `codec_framing`: a newline-free chunk appended to a
newline-free buffer is fully preserved and decodes to nothing. -/
theorem codec_framing_witness :
    ('\n' ∉ ("ab".toList ++ "cd".toList : List Char)) ∧
    handleStdoutChars exParse "ab".toList "cd".toList =
      ("ab".toList ++ "cd".toList, []) :=
  ⟨by decide, codec_framing.1 exParse "ab".toList "cd".toList (by decide)⟩
